import Mathlib

/-!
Verification of the channel membership and moderation state machine of
`server/channels.py`.

Modelling choices:
* Python `set` objects become `Finset String`; `set.add` is `insert` and
  `set.remove`, which raises `KeyError` on a missing element, is the
  fallible `setRemove` returning `Option`.
* The `black_list` dict (username to epoch expiry) becomes an association
  list `List (String × Nat)`; dict assignment replaces the entry of an
  existing key in place and appends a fresh key at the end, and `del`
  removes the entry of a key.
* Epoch timestamps returned by `epoch_timestamp()` are natural numbers
  (they are positive reals at runtime; only their ordering matters here).
  `min_release_time` uses `0` as the falsy "none" sentinel, exactly as the
  Python code relies on `if self.min_release_time:`.
* Ban durations arrive from the HTTP layer and may be negative, so they
  are integers; the code clamps them with `max(duration, 0)`.
* Methods that read the clock take the current timestamp `now` as an
  explicit argument.  Methods that mutate `self` return the new channel
  value, paired with the boolean result where the Python returns one.
* The `chat : MessageBox` field and the HTTP plumbing are outside the
  verified core and are omitted.
-/

/-- Membership test of a key in the ban list, Python `u in self.black_list`. -/
def blMem (bl : List (String × Nat)) (u : String) : Bool :=
  bl.any (fun p => p.1 == u)

/-- Lookup of a key in the ban list, Python `self.black_list[u]` (read). -/
def blLookup (bl : List (String × Nat)) (u : String) : Option Nat :=
  match bl with
  | [] => none
  | p :: rest => if p.1 == u then some p.2 else blLookup rest u

/-- Dict assignment `self.black_list[u] = t`: replace the entry of an
existing key in place, append a fresh key at the end. -/
def insertBL (bl : List (String × Nat)) (u : String) (t : Nat) : List (String × Nat) :=
  match bl with
  | [] => [(u, t)]
  | p :: rest => if p.1 == u then (u, t) :: rest else p :: insertBL rest u t

/-- Python `set.remove`: removes a present element, raises `KeyError`
(modelled as `none`) when the element is absent. -/
def setRemove (s : Finset String) (u : String) : Option (Finset String) :=
  if u ∈ s then some (s.erase u) else none

/-- The per-channel state of `Channel.__init__` (the out-of-scope `chat`
field omitted). -/
structure Channel where
  name : String
  chief_admin : String
  admins : Finset String
  subscribers : Finset String
  black_list : List (String × Nat)
  min_release_time : Nat
deriving DecidableEq

namespace Channel

/-- Constructor `Channel(name, username)`: the state it builds. -/
def init (name username : String) : Channel :=
  { name := name
    chief_admin := username
    admins := ∅
    subscribers := {username}
    black_list := []
    min_release_time := 0 }

/-- Method `Channel.is_chief_admin`. -/
def is_chief_admin (c : Channel) (username : String) : Bool :=
  username == c.chief_admin

/-- Method `Channel.is_admin`. -/
def is_admin (c : Channel) (username : String) : Bool :=
  c.is_chief_admin username || decide (username ∈ c.admins)

/-- Method `Channel.is_subscribed`. -/
def is_subscribed (c : Channel) (username : String) : Bool :=
  decide (username ∈ c.subscribers)

/-- Method `Channel.update_block_list`: when the cached `min_release_time` is
set (nonzero) and strictly in the past, drop every ban-list entry whose
release time is strictly before `now`, and rebuild `min_release_time` by
folding `min` over the surviving entries starting from the reset value
`0` — exactly the Python loop. -/
def update_block_list (c : Channel) (now : Nat) : Channel :=
  if c.min_release_time ≠ 0 ∧ c.min_release_time < now then
    { c with
      black_list := c.black_list.filter (fun p => ¬ p.2 < now)
      min_release_time :=
        (c.black_list.filter (fun p => ¬ p.2 < now)).foldl (fun m p => min m p.2) 0 }
  else c

/-- Method `Channel.is_blocked`: purge, then key membership in `black_list`. -/
def is_blocked (c : Channel) (username : String) (now : Nat) : Channel × Bool :=
  let c1 := c.update_block_list now
  (c1, blMem c1.black_list username)

/-- Method `Channel.promote_admin`.  The `or` short-circuits: the purge inside
`is_blocked` only runs when the user is subscribed. -/
def promote_admin (c : Channel) (username : String) (now : Nat) : Channel × Bool :=
  if ¬ c.is_subscribed username then (c, false)
  else
    let r := c.is_blocked username now
    if r.2 then (r.1, false)
    else if ¬ r.1.is_chief_admin username then
      ({ r.1 with admins := insert username r.1.admins }, true)
    else (r.1, false)

/-- Method `Channel.demote_admin`: `is_admin` also holds for the chief admin,
so the unguarded `self.admins.remove(username)` can raise `KeyError`
(`none`). -/
def demote_admin (c : Channel) (username : String) : Option (Channel × Bool) :=
  if c.is_admin username then
    match setRemove c.admins username with
    | some s => some ({ c with admins := s }, true)
    | none => none
  else some (c, false)

/-- Method `Channel.promote_chief_admin`: the outgoing chief is added to
`admins`, then `chief_admin` is reassigned. -/
def promote_chief_admin (c : Channel) (username : String) : Channel × Bool :=
  if c.is_admin username then
    ({ c with admins := insert c.chief_admin c.admins, chief_admin := username }, true)
  else (c, false)

/-- Method `Channel.subscribe`. -/
def subscribe (c : Channel) (username : String) (now : Nat) : Channel × Bool :=
  let r := c.is_blocked username now
  if r.2 then (r.1, false)
  else ({ r.1 with subscribers := insert username r.1.subscribers }, true)

/-- Method `Channel.unsubscribe`: both `remove` calls are modelled with the
fallible `setRemove`; the one on `subscribers` is guarded by
`is_subscribed`, the one on `admins` only by `is_admin`. -/
def unsubscribe (c : Channel) (username : String) : Option (Channel × Bool) :=
  if c.is_chief_admin username then some (c, false)
  else
    match (if c.is_admin username then setRemove c.admins username else some c.admins) with
    | none => none
    | some a =>
      let c1 := { c with admins := a }
      match (if c1.is_subscribed username then setRemove c1.subscribers username
             else some c1.subscribers) with
      | none => none
      | some s => some ({ c1 with subscribers := s }, true)

/-- Method `Channel.block`. -/
def block (c : Channel) (username : String) (duration : Int) (now : Nat) : Channel × Bool :=
  if c.is_admin username then (c, false)
  else
    let c1 := if c.is_subscribed username
              then { c with subscribers := c.subscribers.erase username } else c
    let release_time := (max duration 0).toNat + now
    let mrt := if c1.min_release_time ≠ 0
               then min c1.min_release_time release_time else release_time
    ({ c1 with min_release_time := mrt
               black_list := insertBL c1.black_list username release_time }, true)

end Channel

/-- Handler `Channels.on_post_channel` restricted to the registry it owns:
creation fails (HTTP 409) when the name is already a key, otherwise the
new `Channel(channel_name, username)` is inserted (HTTP 201). -/
def createChannel (reg : List (String × Channel)) (name founder : String) :
    List (String × Channel) × Bool :=
  if reg.any (fun p => p.1 == name) then (reg, false)
  else (reg ++ [(name, Channel.init name founder)], true)

/-- The channel states reachable from `Channel.__init__` through the
public operations.  Fallible operations contribute a successor only when
they return without a `KeyError`. -/
inductive Reachable : Channel → Prop where
  | init (name founder : String) : Reachable (Channel.init name founder)
  | promote_admin (c : Channel) (u : String) (now : Nat) :
      Reachable c → Reachable (c.promote_admin u now).1
  | demote_admin (c : Channel) (u : String) (r : Channel × Bool) :
      Reachable c → c.demote_admin u = some r → Reachable r.1
  | promote_chief_admin (c : Channel) (u : String) :
      Reachable c → Reachable (c.promote_chief_admin u).1
  | subscribe (c : Channel) (u : String) (now : Nat) :
      Reachable c → Reachable (c.subscribe u now).1
  | unsubscribe (c : Channel) (u : String) (r : Channel × Bool) :
      Reachable c → c.unsubscribe u = some r → Reachable r.1
  | block (c : Channel) (u : String) (d : Int) (now : Nat) :
      Reachable c → Reachable (c.block u d now).1
  | purge (c : Channel) (now : Nat) :
      Reachable c → Reachable (c.update_block_list now)

/-! ### Basic lemmas about the ban-list association list -/

/-- The key column of the ban list. -/
def blKeys (bl : List (String × Nat)) : List String :=
  bl.map Prod.fst

theorem blMem_iff {bl : List (String × Nat)} {u : String} :
    blMem bl u = true ↔ ∃ p ∈ bl, p.1 = u := by
  simp [blMem, List.any_eq_true, beq_iff_eq]

theorem blMem_eq_false_iff {bl : List (String × Nat)} {u : String} :
    blMem bl u = false ↔ ∀ p ∈ bl, p.1 ≠ u := by
  simp [blMem, List.any_eq_false, beq_iff_eq]

theorem blMem_false_of_sub {bl bl' : List (String × Nat)} {u : String}
    (hsub : ∀ p ∈ bl', p ∈ bl) (h : blMem bl u = false) : blMem bl' u = false := by
  rw [blMem_eq_false_iff] at h ⊢
  exact fun p hp => h p (hsub p hp)

theorem mem_insertBL {bl : List (String × Nat)} {u : String} {t : Nat} :
    ∀ p ∈ insertBL bl u t, p ∈ bl ∨ p = (u, t) := by
  induction bl with
  | nil => intro p hp; simp [insertBL] at hp; simp [hp]
  | cons q rest ih =>
    intro p hp
    by_cases hq : q.1 = u
    · simp only [insertBL, hq, beq_self_eq_true, if_true, List.mem_cons] at hp
      rcases hp with h | h
      · right; exact h
      · left; exact List.mem_cons_of_mem _ h
    · simp only [insertBL, beq_iff_eq, hq, if_false, List.mem_cons] at hp
      rcases hp with h | h
      · left; simp [h]
      · rcases ih p h with h' | h'
        · left; exact List.mem_cons_of_mem _ h'
        · right; exact h'

theorem blMem_insertBL_self {bl : List (String × Nat)} {u : String} {t : Nat} :
    blMem (insertBL bl u t) u = true := by
  induction bl with
  | nil => simp [insertBL, blMem]
  | cons q rest ih =>
    by_cases hq : q.1 = u
    · simp [insertBL, hq, blMem]
    · simp only [insertBL, beq_iff_eq, hq, if_false]
      simp only [blMem, List.any_cons] at ih ⊢
      simp [ih]

theorem blLookup_insertBL_self {bl : List (String × Nat)} {u : String} {t : Nat} :
    blLookup (insertBL bl u t) u = some t := by
  induction bl with
  | nil => simp [insertBL, blLookup]
  | cons q rest ih =>
    by_cases hq : q.1 = u
    · simp [insertBL, hq, blLookup]
    · simp [insertBL, blLookup, hq, ih]

theorem val_of_mem_insertBL {bl : List (String × Nat)} {u : String} {t : Nat}
    (hnd : (blKeys bl).Nodup) :
    ∀ p ∈ insertBL bl u t, p.1 = u → p.2 = t := by
  induction bl with
  | nil => intro p hp _; simp [insertBL] at hp; simp [hp]
  | cons q rest ih =>
    simp only [blKeys, List.map_cons, List.nodup_cons] at hnd
    intro p hp hpk
    by_cases hq : q.1 = u
    · simp only [insertBL, hq, beq_self_eq_true, if_true, List.mem_cons] at hp
      rcases hp with h | h
      · simp [h]
      · exfalso
        exact hnd.1 (hq ▸ hpk ▸ List.mem_map_of_mem Prod.fst h)
    · simp only [insertBL, beq_iff_eq, hq, if_false, List.mem_cons] at hp
      rcases hp with h | h
      · exact absurd (h ▸ hpk) hq
      · exact ih hnd.2 p h hpk

/-! ### Shape lemmas for the operations -/

theorem is_chief_admin_iff {c : Channel} {u : String} :
    c.is_chief_admin u = true ↔ u = c.chief_admin := by
  simp [Channel.is_chief_admin]

theorem is_admin_iff {c : Channel} {u : String} :
    c.is_admin u = true ↔ u = c.chief_admin ∨ u ∈ c.admins := by
  simp [Channel.is_admin, Channel.is_chief_admin]

theorem is_subscribed_iff {c : Channel} {u : String} :
    c.is_subscribed u = true ↔ u ∈ c.subscribers := by
  simp [Channel.is_subscribed]

theorem update_block_list_cases (c : Channel) (now : Nat) :
    c.update_block_list now =
      { c with
        black_list := c.black_list.filter (fun p => ¬ p.2 < now)
        min_release_time :=
          (c.black_list.filter (fun p => ¬ p.2 < now)).foldl (fun m p => min m p.2) 0 } ∨
    c.update_block_list now = c := by
  unfold Channel.update_block_list
  split
  · left; rfl
  · right; rfl

theorem update_block_list_subscribers (c : Channel) (now : Nat) :
    (c.update_block_list now).subscribers = c.subscribers := by
  rcases update_block_list_cases c now with h | h <;> rw [h]

theorem update_block_list_admins (c : Channel) (now : Nat) :
    (c.update_block_list now).admins = c.admins := by
  rcases update_block_list_cases c now with h | h <;> rw [h]

theorem update_block_list_chief (c : Channel) (now : Nat) :
    (c.update_block_list now).chief_admin = c.chief_admin := by
  rcases update_block_list_cases c now with h | h <;> rw [h]

theorem update_block_list_black_list_sub (c : Channel) (now : Nat) :
    ∀ p ∈ (c.update_block_list now).black_list, p ∈ c.black_list := by
  rcases update_block_list_cases c now with h | h <;> rw [h]
  · intro p hp; exact (List.mem_filter.mp hp).1
  · intro p hp; exact hp

theorem blMem_update_block_list_false {c : Channel} {u : String} (now : Nat)
    (h : blMem c.black_list u = false) :
    blMem (c.update_block_list now).black_list u = false :=
  blMem_false_of_sub (update_block_list_black_list_sub c now) h

/-- The exact result of `unsubscribe`: it never raises, fails only on the
chief admin, and otherwise erases the user from both sets. -/
theorem unsubscribe_spec (c : Channel) (u : String) :
    c.unsubscribe u =
      (if u = c.chief_admin then some (c, false)
       else some ({ c with admins := c.admins.erase u
                           subscribers := c.subscribers.erase u }, true)) := by
  unfold Channel.unsubscribe
  by_cases hch : u = c.chief_admin
  · simp [Channel.is_chief_admin, hch]
  · simp only [Channel.is_chief_admin, beq_iff_eq, hch, if_false]
    by_cases hadm : u ∈ c.admins
    · have hia : c.is_admin u = true := is_admin_iff.mpr (Or.inr hadm)
      simp only [hia, if_true, setRemove, hadm, if_pos]
      by_cases hsub : u ∈ c.subscribers
      · have his : Channel.is_subscribed { c with admins := c.admins.erase u } u = true :=
          is_subscribed_iff.mpr hsub
        simp [his, setRemove, hsub]
      · have his : Channel.is_subscribed { c with admins := c.admins.erase u } u = false := by
          simp [Channel.is_subscribed, hsub]
        simp [his, Finset.erase_eq_of_not_mem hsub]
    · have hia : c.is_admin u = false := by
        simp [Channel.is_admin, Channel.is_chief_admin, hch, hadm]
      simp only [hia, Bool.false_eq_true, if_false]
      by_cases hsub : u ∈ c.subscribers
      · have his : Channel.is_subscribed { c with admins := c.admins } u = true :=
          is_subscribed_iff.mpr hsub
        simp [his, setRemove, hsub, Finset.erase_eq_of_not_mem hadm]
      · have his : Channel.is_subscribed { c with admins := c.admins } u = false := by
          simp [Channel.is_subscribed, hsub]
        simp [his, Finset.erase_eq_of_not_mem hsub, Finset.erase_eq_of_not_mem hadm]

/-- The exact result of a failing `block`. -/
theorem block_spec_fail (c : Channel) (u : String) (d : Int) (now : Nat)
    (h : c.is_admin u = true) : c.block u d now = (c, false) := by
  unfold Channel.block
  simp [h]

/-- The exact result of a successful `block`. -/
theorem block_spec_succ (c : Channel) (u : String) (d : Int) (now : Nat)
    (h : c.is_admin u = false) :
    c.block u d now =
      ({ c with
          subscribers := c.subscribers.erase u
          min_release_time :=
            if c.min_release_time ≠ 0
            then min c.min_release_time ((max d 0).toNat + now)
            else (max d 0).toNat + now
          black_list := insertBL c.black_list u ((max d 0).toNat + now) }, true) := by
  unfold Channel.block
  simp only [h, Bool.false_eq_true, if_false]
  by_cases hsub : u ∈ c.subscribers
  · have his : c.is_subscribed u = true := is_subscribed_iff.mpr hsub
    simp [his]
  · have his : c.is_subscribed u = false := by simp [Channel.is_subscribed, hsub]
    simp [his, Finset.erase_eq_of_not_mem hsub]

/-! ### The reachability invariant -/

/-- Joint state invariant: admins are subscribers, the chief admin is a
subscriber, and no subscriber is a key of the ban list. -/
def ChannelInv (c : Channel) : Prop :=
  c.admins ⊆ c.subscribers ∧ c.chief_admin ∈ c.subscribers ∧
  ∀ u ∈ c.subscribers, blMem c.black_list u = false

theorem ChannelInv_init (name founder : String) : ChannelInv (Channel.init name founder) := by
  refine ⟨?_, ?_, ?_⟩ <;> simp [Channel.init, blMem]

theorem ChannelInv_update_block_list {c : Channel} (now : Nat) (h : ChannelInv c) :
    ChannelInv (c.update_block_list now) := by
  obtain ⟨h1, h2, h3⟩ := h
  refine ⟨?_, ?_, ?_⟩
  · rw [update_block_list_admins, update_block_list_subscribers]; exact h1
  · rw [update_block_list_chief, update_block_list_subscribers]; exact h2
  · rw [update_block_list_subscribers]
    intro u hu
    exact blMem_update_block_list_false now (h3 u hu)

theorem ChannelInv_promote_admin {c : Channel} (u : String) (now : Nat) (h : ChannelInv c) :
    ChannelInv (c.promote_admin u now).1 := by
  unfold Channel.promote_admin
  by_cases hsub : c.is_subscribed u = true
  · simp only [hsub, not_true, if_false, Channel.is_blocked]
    have hpu := ChannelInv_update_block_list now h
    split
    · exact hpu
    · split
      · obtain ⟨h1, h2, h3⟩ := hpu
        refine ⟨?_, h2, h3⟩
        intro x hx
        rcases Finset.mem_insert.mp hx with rfl | hx'
        · rw [update_block_list_subscribers]; exact is_subscribed_iff.mp hsub
        · exact h1 hx'
      · exact hpu
  · simp only [Bool.not_eq_true] at hsub
    simp [hsub, h]

/-- The exact result of `demote_admin`, with `none` for the `KeyError`. -/
theorem demote_admin_spec (c : Channel) (u : String) :
    c.demote_admin u =
      (if c.is_admin u = true then
        (if u ∈ c.admins then some ({ c with admins := c.admins.erase u }, true) else none)
       else some (c, false)) := by
  unfold Channel.demote_admin setRemove
  split
  · split
    · rename_i s heq
      split at heq
      · rename_i hmem
        cases heq
        simp [hmem]
      · cases heq
    · rename_i heq
      split at heq
      · cases heq
      · rename_i hmem
        simp [hmem]
  · rfl

theorem ChannelInv_demote_admin {c : Channel} {u : String} {r : Channel × Bool}
    (h : ChannelInv c) (hr : c.demote_admin u = some r) : ChannelInv r.1 := by
  obtain ⟨h1, h2, h3⟩ := h
  rw [demote_admin_spec] at hr
  split at hr
  · split at hr
    · cases hr
      exact ⟨fun x hx => h1 (Finset.mem_of_mem_erase hx), h2, h3⟩
    · cases hr
  · cases hr
    exact ⟨h1, h2, h3⟩

theorem ChannelInv_promote_chief_admin {c : Channel} (u : String) (h : ChannelInv c) :
    ChannelInv (c.promote_chief_admin u).1 := by
  obtain ⟨h1, h2, h3⟩ := h
  unfold Channel.promote_chief_admin
  by_cases hadm : c.is_admin u = true
  · simp only [hadm, if_true]
    refine ⟨?_, ?_, h3⟩
    · intro x hx
      rcases Finset.mem_insert.mp hx with rfl | hx'
      · exact h2
      · exact h1 hx'
    · rcases is_admin_iff.mp hadm with rfl | hu
      · exact h2
      · exact h1 hu
  · simp only [Bool.not_eq_true] at hadm
    simp [hadm]
    exact ⟨h1, h2, h3⟩

theorem ChannelInv_subscribe {c : Channel} (u : String) (now : Nat) (h : ChannelInv c) :
    ChannelInv (c.subscribe u now).1 := by
  have hpu := ChannelInv_update_block_list now h
  obtain ⟨h1, h2, h3⟩ := hpu
  by_cases hb : blMem (c.update_block_list now).black_list u = true
  · simp only [Channel.subscribe, Channel.is_blocked, hb, if_true]
    exact ⟨h1, h2, h3⟩
  · rw [Bool.not_eq_true] at hb
    simp only [Channel.subscribe, Channel.is_blocked, hb, Bool.false_eq_true, if_false]
    refine ⟨?_, ?_, ?_⟩
    · intro x hx
      exact Finset.mem_insert_of_mem (h1 hx)
    · exact Finset.mem_insert_of_mem h2
    · intro x hx
      rcases Finset.mem_insert.mp hx with rfl | hx'
      · exact hb
      · exact h3 x hx'

theorem ChannelInv_unsubscribe {c : Channel} {u : String} {r : Channel × Bool}
    (h : ChannelInv c) (hr : c.unsubscribe u = some r) : ChannelInv r.1 := by
  obtain ⟨h1, h2, h3⟩ := h
  rw [unsubscribe_spec] at hr
  split at hr
  · cases hr
    exact ⟨h1, h2, h3⟩
  · next hch =>
    cases hr
    refine ⟨?_, ?_, ?_⟩
    · intro x hx
      obtain ⟨hxu, hxa⟩ := Finset.mem_erase.mp hx
      exact Finset.mem_erase.mpr ⟨hxu, h1 hxa⟩
    · exact Finset.mem_erase.mpr ⟨fun hc => hch hc.symm, h2⟩
    · intro x hx
      exact h3 x (Finset.mem_of_mem_erase hx)

theorem ChannelInv_block {c : Channel} (u : String) (d : Int) (now : Nat) (h : ChannelInv c) :
    ChannelInv (c.block u d now).1 := by
  obtain ⟨h1, h2, h3⟩ := h
  by_cases hadm : c.is_admin u = true
  · rw [block_spec_fail c u d now hadm]
    exact ⟨h1, h2, h3⟩
  · rw [Bool.not_eq_true] at hadm
    rw [block_spec_succ c u d now hadm]
    have hn : ¬ (u = c.chief_admin ∨ u ∈ c.admins) := by
      rw [← is_admin_iff, hadm]
      simp
    push_neg at hn
    obtain ⟨hne, hna⟩ := hn
    refine ⟨?_, ?_, ?_⟩
    · intro x hx
      refine Finset.mem_erase.mpr ⟨fun hxu => hna (hxu ▸ hx), h1 hx⟩
    · exact Finset.mem_erase.mpr ⟨fun hc => hne hc.symm, h2⟩
    · intro x hx
      obtain ⟨hxu, hxs⟩ := Finset.mem_erase.mp hx
      have h3x := h3 x hxs
      rw [blMem_eq_false_iff] at h3x ⊢
      intro p hp
      rcases mem_insertBL p hp with hpb | hpe
      · exact h3x p hpb
      · rw [hpe]
        exact fun hc => hxu hc.symm

/-- Every state reachable from channel creation satisfies the joint
invariant. -/
theorem ChannelInv_of_Reachable {c : Channel} (h : Reachable c) : ChannelInv c := by
  induction h with
  | init name founder => exact ChannelInv_init name founder
  | promote_admin c u now _ ih => exact ChannelInv_promote_admin u now ih
  | demote_admin c u r _ hr ih => exact ChannelInv_demote_admin ih hr
  | promote_chief_admin c u _ ih => exact ChannelInv_promote_chief_admin u ih
  | subscribe c u now _ ih => exact ChannelInv_subscribe u now ih
  | unsubscribe c u r _ hr ih => exact ChannelInv_unsubscribe ih hr
  | block c u d now _ ih => exact ChannelInv_block u d now ih
  | purge c now _ ih => exact ChannelInv_update_block_list now ih

theorem self_mem_insertBL {bl : List (String × Nat)} {u : String} {t : Nat} :
    (u, t) ∈ insertBL bl u t := by
  induction bl with
  | nil => simp [insertBL]
  | cons q rest ih =>
    by_cases hq : q.1 = u
    · simp [insertBL, hq]
    · simp only [insertBL, beq_iff_eq, hq, if_false]
      exact List.mem_cons_of_mem _ ih

/-- The exact result of a `subscribe` that finds the user unbanned after
the purge. -/
theorem subscribe_spec_notblocked (c : Channel) (u : String) (t : Nat)
    (h : blMem (c.update_block_list t).black_list u = false) :
    c.subscribe u t =
      ({ c.update_block_list t with
         subscribers := insert u (c.update_block_list t).subscribers }, true) := by
  simp only [Channel.subscribe, Channel.is_blocked, h, Bool.false_eq_true, if_false]

/-! ### Claim theorems -/

/-- Claim C1: the code violates the claimed purge contract.  In the
reachable state with ban list `[(u, 5), (v, 10)]` and cached
`min_release_time = 5` (built by two `block` calls at time 2), the purge
at time 7 removes `u` but rebuilds `min_release_time` by folding `min`
from the reset value `0`, leaving the "none" sentinel `0` although `v`
remains with expiry 10 — the claim demands the minimum remaining expiry
10.  Consequently the purge at time 11 no longer triggers and `v` stays a
key of the ban list although its expiry has passed. -/
theorem C1_code_bug_eval :
    (((((Channel.init "g" "a").block "u" 3 2).1.block "v" 8 2).1.update_block_list 7).black_list
      = [("v", 10)]) ∧
    (((((Channel.init "g" "a").block "u" 3 2).1.block "v" 8 2).1.update_block_list 7).min_release_time
      = 0) ∧
    ((((((Channel.init "g" "a").block "u" 3 2).1.block "v" 8 2).1.update_block_list 7).update_block_list 11).black_list
      = [("v", 10)]) := by
  decide

/-- Claim C2: the code violates it.  `demote_admin` applied to the chief
admin of a freshly created channel passes the `is_admin` test (the chief
is implicitly an admin) and then calls `set.remove` on an `admins` set
that does not contain the chief, raising `KeyError` (modelled as `none`)
instead of the no-op success the claim requires. -/
theorem C2_code_bug_eval :
    (Channel.init "general" "alice").demote_admin "alice" = none := by
  decide

/-- Claim C4 as stated is false: applying `promote_chief_admin` to the
incumbent chief admin of a fresh channel succeeds (the chief passes the
`is_admin` test) and adds the outgoing chief — who is also the incoming
chief — to `admins`, producing a reachable state whose chief admin is a
member of `admins`. -/
theorem C4_counterexample :
    Reachable ((Channel.init "general" "alice").promote_chief_admin "alice").1 ∧
    ((Channel.init "general" "alice").promote_chief_admin "alice").1.chief_admin ∈
      ((Channel.init "general" "alice").promote_chief_admin "alice").1.admins :=
  ⟨Reachable.promote_chief_admin _ "alice" (Reachable.init "general" "alice"),
   by decide⟩

/-- Claim C4 (amended): in every channel state reachable from creation
through the operations, the chief admin is never a key of the ban list
and is always a member of `subscribers`.  (The third clause of the claim,
that the chief admin is never a member of `admins`, fails: see the
counterexample.) -/
theorem C4_amended_chief_not_banned_subscribed {c : Channel} (h : Reachable c) :
    blMem c.black_list c.chief_admin = false ∧ c.chief_admin ∈ c.subscribers := by
  obtain ⟨h1, h2, h3⟩ := ChannelInv_of_Reachable h
  exact ⟨h3 _ h2, h2⟩

theorem C4_amended_witness :
    blMem (((Channel.init "general" "alice").block "bob" 10 5).1).black_list
        (((Channel.init "general" "alice").block "bob" 10 5).1).chief_admin = false ∧
    (((Channel.init "general" "alice").block "bob" 10 5).1).chief_admin ∈
      (((Channel.init "general" "alice").block "bob" 10 5).1).subscribers :=
  C4_amended_chief_not_banned_subscribed
    (Reachable.block _ "bob" 10 5 (Reachable.init "general" "alice"))

/-- Claim C5: in every channel state reachable from creation through the
operations, no username is simultaneously a member of `subscribers` and a
key of the ban list. -/
theorem C5_subscribers_banlist_disjoint {c : Channel} (h : Reachable c) :
    ∀ u ∈ c.subscribers, blMem c.black_list u = false :=
  (ChannelInv_of_Reachable h).2.2

theorem C5_witness :
    blMem (((Channel.init "general" "alice").block "bob" 10 5).1).black_list "alice" = false :=
  C5_subscribers_banlist_disjoint
    (Reachable.block _ "bob" 10 5 (Reachable.init "general" "alice"))
    "alice" (by decide)

/-- Claim C10: in every channel state reachable from creation through the
operations, the `admins` set is a subset of the `subscribers` set. -/
theorem C10_admins_subset_subscribers {c : Channel} (h : Reachable c) :
    c.admins ⊆ c.subscribers :=
  (ChannelInv_of_Reachable h).1

theorem C10_witness :
    ((((Channel.init "general" "alice").subscribe "bob" 1).1.promote_admin "bob" 1).1).admins ⊆
      ((((Channel.init "general" "alice").subscribe "bob" 1).1.promote_admin "bob" 1).1).subscribers :=
  C10_admins_subset_subscribers
    (Reachable.promote_admin _ "bob" 1
      (Reachable.subscribe _ "bob" 1 (Reachable.init "general" "alice")))

/-- Claim C6: `block(user, duration)` fails exactly when the user is an
admin or the chief admin; on success it removes the user from
`subscribers` (a no-op when absent), records the ban-list entry
`now + max(duration, 0)`, and updates `min_release_time` to the minimum
with the new expiry, or to the new expiry when it held the "none"
sentinel. -/
theorem C6_block_contract (c : Channel) (u : String) (d : Int) (t : Nat) :
    ((c.block u d t).2 = false ↔ (u = c.chief_admin ∨ u ∈ c.admins)) ∧
    ((c.block u d t).2 = true →
      ((c.block u d t).1.subscribers = c.subscribers.erase u ∧
       blLookup (c.block u d t).1.black_list u = some ((max d 0).toNat + t) ∧
       (c.block u d t).1.min_release_time =
         (if c.min_release_time ≠ 0
          then min c.min_release_time ((max d 0).toNat + t)
          else (max d 0).toNat + t))) := by
  by_cases hadm : c.is_admin u = true
  · rw [block_spec_fail c u d t hadm]
    refine ⟨iff_of_true rfl (is_admin_iff.mp hadm), ?_⟩
    intro hcon
    cases hcon
  · rw [Bool.not_eq_true] at hadm
    rw [block_spec_succ c u d t hadm]
    refine ⟨iff_of_false (by simp) ?_, ?_⟩
    · rw [← is_admin_iff, hadm]
      simp
    · intro _
      exact ⟨rfl, blLookup_insertBL_self, rfl⟩

theorem C6_witness :
    blLookup (((Channel.init "general" "alice").block "bob" 10 5).1).black_list "bob"
      = some 15 :=
  ((C6_block_contract (Channel.init "general" "alice") "bob" 10 5).2 (by decide)).2.1

/-- Claim C7: `unsubscribe(user)` fails exactly when the user is the
chief admin (leaving the state unchanged); otherwise it succeeds, erasing
the user from `admins` and from `subscribers` (each a no-op when the user
is absent, so a never-member still gets a silent success). -/
theorem C7_unsubscribe_contract (c : Channel) (u : String) :
    (u = c.chief_admin → c.unsubscribe u = some (c, false)) ∧
    (u ≠ c.chief_admin →
      c.unsubscribe u =
        some ({ c with admins := c.admins.erase u
                       subscribers := c.subscribers.erase u }, true)) := by
  rw [unsubscribe_spec]
  constructor
  · intro h
    rw [if_pos h]
  · intro h
    rw [if_neg h]

theorem C7_witness :
    (Channel.init "general" "alice").unsubscribe "bob" =
      some ({ Channel.init "general" "alice" with
              admins := (Channel.init "general" "alice").admins.erase "bob"
              subscribers := (Channel.init "general" "alice").subscribers.erase "bob" },
            true) :=
  (C7_unsubscribe_contract (Channel.init "general" "alice") "bob").2 (by decide)

/-- Claim C9: `createChannel(name, founder)` fails and leaves the
registry unchanged when the name is already a key; otherwise it appends a
mapping from the name to a fresh channel whose chief admin is the
founder, whose subscriber set is exactly the founder, and whose admin set
and ban list are empty. -/
theorem C9_createChannel_contract (reg : List (String × Channel)) (name founder : String) :
    (reg.any (fun p => p.1 == name) = true →
      createChannel reg name founder = (reg, false)) ∧
    (reg.any (fun p => p.1 == name) = false →
      createChannel reg name founder = (reg ++ [(name, Channel.init name founder)], true) ∧
      (Channel.init name founder).chief_admin = founder ∧
      (Channel.init name founder).subscribers = {founder} ∧
      (Channel.init name founder).admins = ∅ ∧
      (Channel.init name founder).black_list = []) := by
  constructor
  · intro h
    unfold createChannel
    rw [if_pos h]
  · intro h
    unfold createChannel
    rw [if_neg (by rw [h]; exact Bool.false_ne_true)]
    exact ⟨rfl, rfl, rfl, rfl, rfl⟩

theorem C9_witness :
    createChannel [] "general" "alice" =
      ([("general", Channel.init "general" "alice")], true) :=
  ((C9_createChannel_contract [] "general" "alice").2 (by decide)).1

theorem is_blocked_fst (c : Channel) (u : String) (t : Nat) :
    (c.is_blocked u t).1 = c.update_block_list t := rfl

theorem is_blocked_snd (c : Channel) (u : String) (t : Nat) :
    (c.is_blocked u t).2 = blMem (c.update_block_list t).black_list u := rfl

theorem blMem_update_block_list_true {s : Channel} {u : String} {tq : Nat}
    (h : ∃ E, (u, E) ∈ s.black_list ∧ tq ≤ E) :
    blMem (s.update_block_list tq).black_list u = true := by
  obtain ⟨E, hmem, hle⟩ := h
  rcases update_block_list_cases s tq with hc | hc <;> rw [hc]
  · rw [blMem_iff]
    refine ⟨(u, E), List.mem_filter.mpr ⟨hmem, ?_⟩, rfl⟩
    simp
    omega
  · exact blMem_iff.mpr ⟨(u, E), hmem, rfl⟩

theorem blMem_update_block_list_false_of_expired {s : Channel} {u : String} {tq : Nat}
    (h0 : s.min_release_time ≠ 0) (hlt : s.min_release_time < tq)
    (hall : ∀ p ∈ s.black_list, p.1 = u → p.2 < tq) :
    blMem (s.update_block_list tq).black_list u = false := by
  unfold Channel.update_block_list
  rw [if_pos ⟨h0, hlt⟩]
  rw [blMem_eq_false_iff]
  intro p hp hpu
  have hp' := List.mem_filter.mp hp
  have hval := hall p hp'.1 hpu
  have hnot := hp'.2
  simp at hnot
  omega

theorem unsubscribe_black_list {c : Channel} {u : String} {r : Channel × Bool}
    (hr : c.unsubscribe u = some r) : r.1.black_list = c.black_list := by
  rw [unsubscribe_spec] at hr
  split at hr <;> cases hr <;> rfl

theorem mem_subscribe_of_notblocked (c : Channel) (u : String) (t : Nat)
    (h : blMem c.black_list u = false) : u ∈ (c.subscribe u t).1.subscribers := by
  have h2 : blMem (c.update_block_list t).black_list u = false :=
    blMem_update_block_list_false t h
  rw [subscribe_spec_notblocked c u t h2]
  exact Finset.mem_insert_self u _

/-- Claim C3 as stated is false for negative durations: after
`block("bob", -1)` at time 5 the recorded expiry is
`max(-1, 0) + 5 = 5`, so `is_blocked("bob")` evaluated at time 5 —
a time strictly after `t + d = 4` — still returns true. -/
theorem C3_counterexample :
    ((((Channel.init "general" "alice").block "bob" (-1) 5).1.is_blocked "bob" 5).2 = true) ∧
    ((5 : Int) + (-1) < (5 : Int)) := by
  exact ⟨by decide, by decide⟩

/-- Claim C3 (amended): the expiry boundary is `t + max(d, 0)`, the
expiry the code records, rather than `t + d`.  After a successful
`block(u, d)` at a positive epoch time `t`, an immediate `is_blocked(u)`
at any time up to `t + max(d, 0)` returns true, and at any time strictly
past `t + max(d, 0)` returns false with `u` no longer a key of the ban
list of the returned state.  The ban list keys of a Python dict are
unique, whence the `Nodup` hypothesis on the starting state. -/
theorem C3_amended_block_isBlocked (c : Channel) (u : String) (d : Int) (t t' : Nat)
    (hnd : (blKeys c.black_list).Nodup) (ht : 0 < t)
    (hsucc : (c.block u d t).2 = true) :
    (t' ≤ (max d 0).toNat + t → ((c.block u d t).1.is_blocked u t').2 = true) ∧
    ((max d 0).toNat + t < t' →
      ((c.block u d t).1.is_blocked u t').2 = false ∧
      blMem (((c.block u d t).1.is_blocked u t').1).black_list u = false) := by
  have hadm : c.is_admin u = false := by
    by_cases h : c.is_admin u = true
    · rw [block_spec_fail c u d t h] at hsucc
      cases hsucc
    · rwa [Bool.not_eq_true] at h
  have hs := congrArg Prod.fst (block_spec_succ c u d t hadm)
  constructor
  · intro hle
    rw [is_blocked_snd, hs]
    exact blMem_update_block_list_true ⟨(max d 0).toNat + t, self_mem_insertBL, hle⟩
  · intro hgt
    have hbl : (c.block u d t).1.black_list =
        insertBL c.black_list u ((max d 0).toNat + t) := by rw [hs]
    have hmrt : (c.block u d t).1.min_release_time =
        (if c.min_release_time ≠ 0 then min c.min_release_time ((max d 0).toNat + t)
         else (max d 0).toNat + t) := by rw [hs]
    have h0 : (c.block u d t).1.min_release_time ≠ 0 := by
      rw [hmrt]
      split
      · rename_i hm
        rw [Ne, Nat.min_eq_zero_iff]
        push_neg
        exact ⟨hm, by omega⟩
      · omega
    have hlt : (c.block u d t).1.min_release_time < t' := by
      rw [hmrt]
      split
      · exact lt_of_le_of_lt (Nat.min_le_right _ _) hgt
      · exact hgt
    have hall : ∀ p ∈ (c.block u d t).1.black_list, p.1 = u → p.2 < t' := by
      rw [hbl]
      intro p hp hpu
      have hval := val_of_mem_insertBL hnd p hp hpu
      omega
    have hres := blMem_update_block_list_false_of_expired h0 hlt hall
    constructor
    · rw [is_blocked_snd]
      exact hres
    · rw [is_blocked_fst]
      exact hres

theorem C3_amended_witness :
    (((Channel.init "general" "alice").block "bob" 10 5).1.is_blocked "bob" 16).2 = false ∧
    blMem ((((Channel.init "general" "alice").block "bob" 10 5).1.is_blocked "bob" 16).1).black_list
      "bob" = false :=
  (C3_amended_block_isBlocked (Channel.init "general" "alice") "bob" 10 5 16
    (by decide) (by decide) (by decide)).2 (by decide)

/-- Claim C8: starting from a state in which `u` is not banned (the ban
check at the first subscription reports false), `subscribe`,
`unsubscribe`, `subscribe` on `u`, with no intervening `block`, leaves
`u` a member of `subscribers`. -/
theorem C8_resubscribe_roundtrip (c : Channel) (u : String) (t1 t3 : Nat)
    (hnb : (c.is_blocked u t1).2 = false) :
    ∀ r : Channel × Bool,
      (c.subscribe u t1).1.unsubscribe u = some r →
      u ∈ ((r.1.subscribe u t3).1).subscribers := by
  intro r hr
  have hnb' : blMem (c.update_block_list t1).black_list u = false := hnb
  rw [subscribe_spec_notblocked c u t1 hnb'] at hr
  have hbl := unsubscribe_black_list hr
  have hrb : blMem r.1.black_list u = false := by
    rw [hbl]
    exact hnb'
  exact mem_subscribe_of_notblocked r.1 u t3 hrb

theorem C8_witness :
    "bob" ∈ (((Channel.init "general" "alice").subscribe "bob" 3).1).subscribers :=
  C8_resubscribe_roundtrip (Channel.init "general" "alice") "bob" 1 3 (by decide)
    (Channel.init "general" "alice", true) (by decide)
